import Mathlib

/-!
Verification development for the Meal-Planner repository's shopping-list
aggregation and inventory-reconciliation engine.

The definitions below are a shallow embedding of the TypeScript code in
`src/services/shopping.ts`, `src/services/inventory.ts`, and of the SQL
functions in `supabase/migrations/001_add_base_servings.sql` and
`supabase/migrations/002_inventory.sql`.

Modelling conventions:
- JavaScript numbers and SQL NUMERIC values are modelled as `ℚ`.
- JavaScript `Map` objects (which preserve insertion order) are modelled as
  association lists (`List (κ × α)`) where `set` replaces in place and
  appends new keys at the end, exactly like `Map.set`.
- `null`/`undefined` fields are modelled as `Option`.
- Database round trips become explicit state passing; the row returned by a
  service function is modelled as part of the function's result.
- JavaScript string primitives (`toLowerCase`, `trim`, `startsWith`,
  word-boundary regex replacement) are re-implemented on `List Char`;
  `\w`/`\b` use the ASCII word-character class exactly as non-unicode
  JavaScript regexes do.
-/

-- ============================================================================
-- JavaScript string primitives
-- ============================================================================

/-- Model of `String.prototype.toLowerCase` (ASCII letters; all concrete
inputs used in this development have ASCII letters wherever case matters). -/
def jsToLower (s : String) : String :=
  ⟨s.data.map Char.toLower⟩

/-- Drops matching characters from both ends of a character list. -/
def dropEdges (p : Char → Bool) (l : List Char) : List Char :=
  ((l.dropWhile p).reverse.dropWhile p).reverse

/-- Model of `String.prototype.trim` (strips whitespace at both ends). -/
def jsTrim (s : String) : String :=
  ⟨dropEdges Char.isWhitespace s.data⟩

/-- Character class `[,.\s]` used by the edge-punctuation regex in
`normalizeIngredientName`. -/
def isPunctSpace (c : Char) : Bool :=
  c == ',' || c == '.' || c.isWhitespace

/-- Model of `.replace(/^[,.\s]+|[,.\s]+$/g, '')`: strips runs of commas,
periods and whitespace from both ends of the string. -/
def stripEdgePunct (s : String) : String :=
  ⟨dropEdges isPunctSpace s.data⟩

/-- ASCII word character, the `\w` class of a non-unicode JS regex. -/
def isWordChar (c : Char) : Bool :=
  c.isAlphanum || c == '_'

/-- Model of `String.prototype.startsWith`. -/
def jsStartsWith (s pre : String) : Bool :=
  pre.data.isPrefixOf s.data

/-- Tries each alternative of a word pattern at the head of `l` (longest
alternative listed first, as a greedy regex would): on success returns the
matched characters and the remaining characters, enforcing the trailing
`\b` (next character absent or not a word character). -/
def wordMatchAt : List (List Char) → List Char → Option (List Char × List Char)
  | [], _ => none
  | a :: as, l =>
    if a.isPrefixOf l then
      match l.drop a.length with
      | [] => some (a, [])
      | c :: rest => if isWordChar c then wordMatchAt as l else some (a, c :: rest)
    else wordMatchAt as l

/-- Scanner for a global word-boundary replacement with the empty string:
`prev` is the character just before the current position in the original
string (used for the leading `\b`), and `fuel` bounds the number of
consumed characters. -/
def removeWordGo (alts : List (List Char)) : Nat → Option Char → List Char → List Char
  | 0, _, l => l
  | _ + 1, _, [] => []
  | fuel + 1, prev, c :: rest =>
    if (match prev with | none => true | some p => !isWordChar p) then
      match wordMatchAt alts (c :: rest) with
      | some (a, remaining) => removeWordGo alts fuel a.getLast? remaining
      | none => c :: removeWordGo alts fuel (some c) rest
    else c :: removeWordGo alts fuel (some c) rest

/-- Model of `.replace(/\bword\b/gi, '')` on an already-lowercased string;
`alts` lists the pattern alternatives (e.g. `fraîche?` expands to
`["fraîche", "fraîch"]`). -/
def removeWords (alts : List String) (s : String) : String :=
  ⟨removeWordGo (alts.map String.data) s.data.length none s.data⟩

/-- Model of `capitalizeFirst` from `shopping.ts`:
`str.charAt(0).toUpperCase() + str.slice(1)`. -/
def capitalizeFirst (s : String) : String :=
  match s.data with
  | [] => ""
  | c :: rest => ⟨c.toUpper :: rest⟩

-- ============================================================================
-- Association lists (model of JavaScript Map, insertion-ordered)
-- ============================================================================

/-- Model of `Map.prototype.get`. -/
def lookupA {κ α : Type} [BEq κ] (k : κ) : List (κ × α) → Option α
  | [] => none
  | p :: rest => if p.1 == k then some p.2 else lookupA k rest

/-- Model of `Map.prototype.set`: replaces the value in place if the key is
present (keeping its position, as JS Maps do) and appends otherwise. -/
def setA {κ α : Type} [BEq κ] (k : κ) (v : α) : List (κ × α) → List (κ × α)
  | [] => [(k, v)]
  | p :: rest => if p.1 == k then (k, v) :: rest else p :: setA k v rest

-- ============================================================================
-- Normalization tables (transcribed from shopping.ts)
-- ============================================================================

/-- English to French ingredient translations (`INGREDIENT_TRANSLATIONS`). -/
def INGREDIENT_TRANSLATIONS : List (String × String) := [
  ("olive oil", "huile d\x27olive"),
  ("oil", "huile"),
  ("garlic", "ail"),
  ("onion", "oignon"),
  ("onions", "oignon"),
  ("red onion", "oignon rouge"),
  ("tomato", "tomate"),
  ("tomatoes", "tomate"),
  ("cherry tomatoes", "tomates cerises"),
  ("tomato paste", "concentré de tomate"),
  ("salt", "sel"),
  ("pepper", "poivre"),
  ("black pepper", "poivre noir"),
  ("sugar", "sucre"),
  ("flour", "farine"),
  ("butter", "beurre"),
  ("egg", "oeuf"),
  ("eggs", "oeufs"),
  ("milk", "lait"),
  ("cream", "crème"),
  ("cheese", "fromage"),
  ("chicken", "poulet"),
  ("beef", "boeuf"),
  ("pork", "porc"),
  ("fish", "poisson"),
  ("rice", "riz"),
  ("pasta", "pâtes"),
  ("potato", "pomme de terre"),
  ("potatoes", "pommes de terre"),
  ("carrot", "carotte"),
  ("carrots", "carottes"),
  ("lemon", "citron"),
  ("lettuce", "laitue"),
  ("cucumber", "concombre"),
  ("avocado", "avocat"),
  ("bell pepper", "poivron"),
  ("berries", "fruits rouges"),
  ("parsley", "persil"),
  ("basil", "basilic"),
  ("thyme", "thym"),
  ("oregano", "origan"),
  ("ginger", "gingembre"),
  ("soy sauce", "sauce soja"),
  ("honey", "miel"),
  ("vinegar", "vinaigre"),
  ("water", "eau"),
  ("broth", "bouillon"),
  ("stock", "bouillon"),
  ("chicken broth", "bouillon de poulet"),
  ("beef broth", "bouillon de boeuf")]

/-- Singular/plural French folding (`PLURAL_NORMALIZATIONS`). -/
def PLURAL_NORMALIZATIONS : List (String × String) := [
  ("oignons", "oignon"),
  ("tomates", "tomate"),
  ("carottes", "carotte"),
  ("pommes de terre", "pomme de terre"),
  ("oeufs", "oeuf"),
  ("gousses", "gousse")]

/-- Aisle translations (`AISLE_TRANSLATIONS`). -/
def AISLE_TRANSLATIONS : List (String × String) := [
  ("produce", "Fruits & Légumes"),
  ("meat", "Boucherie"),
  ("dairy", "Produits laitiers"),
  ("bakery", "Boulangerie"),
  ("pasta", "Pâtes & Riz"),
  ("grains", "Céréales"),
  ("canned", "Conserves"),
  ("frozen", "Surgelés"),
  ("spices", "Épices"),
  ("condiments", "Condiments"),
  ("oils", "Huiles"),
  ("beverages", "Boissons"),
  ("snacks", "Snacks"),
  ("international", "Produits du monde"),
  ("other", "Autre"),
  ("asian", "Asiatique"),
  ("breakfast", "Petit-déjeuner"),
  ("deli", "Traiteur")]

/-- Unit canonicalization (`UNIT_NORMALIZATIONS`). -/
def UNIT_NORMALIZATIONS : List (String × String) := [
  ("tbsp", "c. à soupe"),
  ("tablespoon", "c. à soupe"),
  ("tablespoons", "c. à soupe"),
  ("cuil. à soupe", "c. à soupe"),
  ("tsp", "c. à café"),
  ("teaspoon", "c. à café"),
  ("teaspoons", "c. à café"),
  ("cup", "tasse"),
  ("cups", "tasse"),
  ("clove", "gousse"),
  ("cloves", "gousses"),
  ("piece", "pièce"),
  ("pieces", "pièces"),
  ("head", "pièce"),
  ("slice", "tranche"),
  ("slices", "tranches"),
  ("g", "g"),
  ("kg", "kg"),
  ("ml", "ml"),
  ("l", "l")]

/-- Exact-key lookup in a record-literal table (`TABLE[key]`). -/
def tableGet (t : List (String × String)) (k : String) : Option String :=
  (t.find? (fun p => p.1 == k)).map (fun p => p.2)

-- ============================================================================
-- Normalization functions (from shopping.ts)
-- ============================================================================

/-- Model of `normalizeIngredientName`: lowercase + trim, strip leading and
trailing `[,.\s]` runs, apply the translation table, apply the plural
table, remove the filler words `fresh`/`frais`/`fraîche?` (word-bounded),
and trim again. -/
def normalizeIngredientName (name : String) : String :=
  let n1 := jsTrim (jsToLower name)
  let n2 := stripEdgePunct n1
  let n3 := match tableGet INGREDIENT_TRANSLATIONS n2 with
    | some v => v
    | none => n2
  let n4 := match tableGet PLURAL_NORMALIZATIONS n3 with
    | some v => v
    | none => n3
  jsTrim (removeWords ["fraîche", "fraîch"] (removeWords ["frais"] (removeWords ["fresh"] n4)))

/-- Model of `normalizeUnit`: absent or empty unit maps to `""`; otherwise
lowercase + trim and look up the canonical token, passing unknown units
through unchanged. -/
def normalizeUnit : Option String → String
  | none => ""
  | some u =>
    if u == "" then ""
    else
      let n := jsTrim (jsToLower u)
      (tableGet UNIT_NORMALIZATIONS n).getD n

/-- Model of `translateAisle`: absent or empty aisle yields `none`; known
English codes map to display labels; unknown codes pass through. -/
def translateAisle : Option String → Option String
  | none => none
  | some a =>
    if a == "" then none
    else some ((tableGet AISLE_TRANSLATIONS (jsToLower a)).getD a)


-- ============================================================================
-- Data model (from database.types via the service code)
-- ============================================================================

/-- An ingredient row: name, optional quantity (null means "one unit"),
optional unit, optional aisle tag. -/
structure Ingredient where
  name : String
  quantity : Option ℚ
  unit : Option String
  aisle : Option String
deriving Repr, DecidableEq

/-- The recipe fields used by the pipeline: `base_servings` (optional in
the TS row type) and the joined ingredient list. -/
structure Recipe where
  base_servings : Option ℚ
  ingredients : List Ingredient
deriving Repr, DecidableEq

/-- A planned meal joined with its recipe; `recipe` is `none` when the
foreign-key join resolved to nothing (such meals are skipped). -/
structure PlannedMeal where
  servings : ℚ
  recipe : Option Recipe
deriving Repr, DecidableEq

/-- An inventory row with the fields used by netting and low-stock
folding. -/
structure InventoryItem where
  name : String
  quantity : ℚ
  unit : Option String
  min_quantity : ℚ
  aisle : Option String
deriving Repr, DecidableEq

/-- One (quantity, normalized unit) sub-total of an aggregated ingredient
(`QuantityUnit` in shopping.ts). -/
structure QuantityUnit where
  quantity : ℚ
  unit : String
deriving Repr, DecidableEq

/-- An aggregated demand entry (`AggregatedItem` in shopping.ts); the
`isLowStock` flag defaults to `false` (undefined in TS). -/
structure AggregatedItem where
  name : String
  quantities : List QuantityUnit
  aisle : Option String
  isLowStock : Bool := false
deriving Repr, DecidableEq

/-- A `shopping_list_items` row as inserted by the materializer. -/
structure ShoppingRow where
  name : String
  quantity : ℚ
  unit : Option String
  aisle : Option String
  checked : Bool
deriving Repr, DecidableEq

/-- The demand map: normalized name → aggregated entry, insertion
ordered. -/
abbrev AggMap := List (String × AggregatedItem)

/-- The inventory map: normalized name → (normalized unit → summed
quantity), insertion ordered. -/
abbrev InvMap := List (String × List (String × ℚ))

/-- JavaScript `x || d` for numbers: `0` is falsy. -/
def jsOrNum (x : ℚ) (d : ℚ) : ℚ :=
  if x = 0 then d else x

/-- JavaScript `x || d` for an optional number field
(`recipe.base_servings || 4`): undefined and `0` both yield the default. -/
def jsOrOptNum (x : Option ℚ) (d : ℚ) : ℚ :=
  match x with
  | none => d
  | some v => if v = 0 then d else v

-- ============================================================================
-- Step 1.5 of generateShoppingList: build the inventory map
-- ============================================================================

/-- Model of the inventory-map construction loop: for each inventory row,
sum its quantity into the bucket keyed by
(`normalizeIngredientName(name)`, `normalizeUnit(unit)`). -/
def buildInventoryMap (inv : List InventoryItem) : InvMap :=
  inv.foldl
    (fun m item =>
      let normalized := normalizeIngredientName item.name
      let unit := normalizeUnit item.unit
      let unitMap := (lookupA normalized m).getD []
      setA normalized (setA unit ((lookupA unit unitMap).getD 0 + item.quantity) unitMap) m)
    []

-- ============================================================================
-- Step 2 of generateShoppingList: proportional aggregation
-- ============================================================================

/-- Adds `δ` into the first sub-total carrying unit `u` (the JS code
mutates the first `find` result). -/
def bumpFirst (u : String) (δ : ℚ) : List QuantityUnit → List QuantityUnit
  | [] => []
  | q :: rest =>
    if q.unit == u then { q with quantity := q.quantity + δ } :: rest
    else q :: bumpFirst u δ rest

/-- The inner aggregation step for one ingredient at a given multiplier:
group by `normalizeIngredientName(name)` only, then add
`(quantity ?? 1) * multiplier` into the sub-total matching
`normalizeUnit(unit)`, creating entries as needed. -/
def addIngredient (agg : AggMap) (multiplier : ℚ) (ing : Ingredient) : AggMap :=
  let normalizedName := normalizeIngredientName ing.name
  let normalizedUnit := normalizeUnit ing.unit
  let neededQuantity := (ing.quantity.getD 1) * multiplier
  match lookupA normalizedName agg with
  | some existing =>
    let qs :=
      if existing.quantities.any (fun q => q.unit == normalizedUnit) then
        bumpFirst normalizedUnit neededQuantity existing.quantities
      else
        existing.quantities ++ [⟨neededQuantity, normalizedUnit⟩]
    setA normalizedName { existing with quantities := qs } agg
  | none =>
    agg ++ [(normalizedName,
      { name := capitalizeFirst normalizedName,
        quantities := [⟨neededQuantity, normalizedUnit⟩],
        aisle := ing.aisle,
        isLowStock := false })]

/-- Model of the aggregation loop over planned meals: meals whose recipe
join failed are skipped; the multiplier is
`(meal.servings || 1) / (recipe.base_servings || 4)`. -/
def aggregateMeals (meals : List PlannedMeal) : AggMap :=
  meals.foldl
    (fun agg meal =>
      match meal.recipe with
      | none => agg
      | some recipe =>
        let multiplier := jsOrNum meal.servings 1 / jsOrOptNum recipe.base_servings 4
        recipe.ingredients.foldl (fun a i => addIngredient a multiplier i) agg)
    []

-- ============================================================================
-- Step 2.1 of generateShoppingList: inventory netting
-- ============================================================================

/-- One netting step for a single (quantity, unit) sub-total, threading
the per-name stock map: with `inStock > 0` the remaining need is
`max(0, demand - inStock)`, the stock bucket is clamped to
`max(0, inStock - demand)`, and a zero remaining is dropped. -/
def netStep (acc : List QuantityUnit × List (String × ℚ)) (qu : QuantityUnit) :
    List QuantityUnit × List (String × ℚ) :=
  let inStock := (lookupA qu.unit acc.2).getD 0
  if inStock > 0 then
    let remainingNeeded := max 0 (qu.quantity - inStock)
    let stock := setA qu.unit (max 0 (inStock - qu.quantity)) acc.2
    (if remainingNeeded > 0 then acc.1 ++ [⟨remainingNeeded, qu.unit⟩] else acc.1, stock)
  else
    (acc.1 ++ [qu], acc.2)

/-- Nets all sub-totals of one aggregated entry against its per-name
stock map. -/
def netOne (stockByUnit : List (String × ℚ)) (qs : List QuantityUnit) :
    List QuantityUnit × List (String × ℚ) :=
  qs.foldl netStep ([], stockByUnit)

/-- One netting step for a whole aggregated entry: a name with no stock is
kept unchanged; a name all of whose sub-totals net to zero is deleted
from the demand map; the mutated stock map is written back. -/
def netEntry (acc : AggMap × InvMap) (e : String × AggregatedItem) : AggMap × InvMap :=
  match lookupA e.1 acc.2 with
  | none => (acc.1 ++ [e], acc.2)
  | some stockByUnit =>
    let r := netOne stockByUnit e.2.quantities
    let inv := setA e.1 r.2 acc.2
    if r.1.isEmpty then (acc.1, inv)
    else (acc.1 ++ [(e.1, { e.2 with quantities := r.1 })], inv)

/-- Model of Step 2.1 as a whole: nets every aggregated entry, in demand
insertion order, against the shared inventory map and returns the reduced
demand map together with the mutated inventory map. -/
def netAgg (agg : AggMap) (inv : InvMap) : AggMap × InvMap :=
  agg.foldl netEntry ([], inv)

-- ============================================================================
-- Step 2.5 of generateShoppingList: low-stock replenishment folding
-- ============================================================================

/-- Model of `getLowStockItems` (via `listInventory({lowStock: true})`):
the client-side filter `quantity <= min_quantity`. -/
def getLowStockItems (inv : List InventoryItem) : List InventoryItem :=
  inv.filter (fun item => item.quantity ≤ item.min_quantity)

/-- The effective current stock the fold reads for a low-stock item:
`inventoryMap.get(normalizedName)?.get(normalizedUnit) ?? item.quantity`,
where the map is the mutated, post-netting inventory map. -/
def effectiveStock (invMap : InvMap) (item : InventoryItem) : ℚ :=
  match lookupA (normalizeIngredientName item.name) invMap with
  | none => item.quantity
  | some stockByUnit => (lookupA (normalizeUnit item.unit) stockByUnit).getD item.quantity

/-- The replenishment quantity computed for one low-stock item:
`toBuy = max(0, min_quantity - currentStock)`, forced to `1` when it is
zero while `currentStock <= min_quantity`. -/
def lowStockToBuy (invMap : InvMap) (item : InventoryItem) : ℚ :=
  let currentStock := effectiveStock invMap item
  let toBuy := max 0 (item.min_quantity - currentStock)
  if currentStock ≤ item.min_quantity ∧ toBuy = 0 then 1 else toBuy

/-- One folding step for a low-stock item: a non-positive `toBuy` is
skipped; otherwise the quantity is merged into the existing sub-total for
the same (normalized name, unit) or a new entry is created, and the entry
is flagged `isLowStock`. -/
def foldLowStockItem (invMap : InvMap) (agg : AggMap) (item : InventoryItem) : AggMap :=
  let normalizedName := normalizeIngredientName item.name
  let normalizedUnit := normalizeUnit item.unit
  let toBuy := lowStockToBuy invMap item
  if toBuy ≤ 0 then agg
  else
    match lookupA normalizedName agg with
    | some existing =>
      let qs :=
        if existing.quantities.any (fun q => q.unit == normalizedUnit) then
          bumpFirst normalizedUnit toBuy existing.quantities
        else
          existing.quantities ++ [⟨toBuy, normalizedUnit⟩]
      setA normalizedName { existing with quantities := qs, isLowStock := true } agg
    | none =>
      agg ++ [(normalizedName,
        { name := capitalizeFirst normalizedName,
          quantities := [⟨toBuy, normalizedUnit⟩],
          aisle := item.aisle,
          isLowStock := true })]

/-- Model of the Step 2.5 loop over all low-stock items. -/
def foldLowStock (invMap : InvMap) (agg : AggMap) (lowStockItems : List InventoryItem) : AggMap :=
  lowStockItems.foldl (foldLowStockItem invMap) agg

-- ============================================================================
-- Step 4 of generateShoppingList: materialization
-- ============================================================================

/-- JavaScript `x || 'other'` on the optional aisle string. -/
def aisleOrOther (a : Option String) : String :=
  match a with
  | none => "other"
  | some s => if s == "" then "other" else s

/-- The rows inserted for one aggregated entry: one row per (quantity,
unit) sub-total; an empty-string unit becomes `null`; a low-stock entry
has its aisle prefixed with the reserved `lowstock:` tag. -/
def rowsOfEntry (item : AggregatedItem) : List ShoppingRow :=
  item.quantities.map (fun qu =>
    { name := item.name,
      quantity := qu.quantity,
      unit := if qu.unit == "" then none else some qu.unit,
      aisle := if item.isLowStock then some ("lowstock:" ++ aisleOrOther item.aisle) else item.aisle,
      checked := false })

/-- Model of the item-insert construction (`flatMap` over the final
demand map). -/
def materialize (agg : AggMap) : List ShoppingRow :=
  (agg.map (fun e => rowsOfEntry e.2)).flatten

-- ============================================================================
-- The full client-side pipeline (pure core of generateShoppingList)
-- ============================================================================

/-- The pure core of `generateShoppingList`: builds the inventory map from
the inventory snapshot, aggregates planned meals proportionally, nets
against inventory, folds in low-stock replenishment, and materializes the
item rows. Both inventory reads of the TS code (the netting read and
`getLowStockItems`) see the same snapshot `inv`. -/
def generateShoppingListItems (meals : List PlannedMeal) (inv : List InventoryItem) :
    List ShoppingRow :=
  let invMap := buildInventoryMap inv
  let agg := aggregateMeals meals
  let netted := netAgg agg invMap
  materialize (foldLowStock netted.2 netted.1 (getLowStockItems inv))

-- ============================================================================
-- UI helpers: isLowStockItem and groupItemsByAisle (from shopping.ts)
-- ============================================================================

/-- Model of `isLowStockItem`:
`item.aisle?.startsWith('lowstock:') ?? false`. -/
def isLowStockItem (item : ShoppingRow) : Bool :=
  match item.aisle with
  | none => false
  | some a => jsStartsWith a "lowstock:"

/-- Removes the first occurrence of `pat` from a character list, as
`String.prototype.replace` with a plain-string pattern does. -/
def removeFirstSub (pat : List Char) : List Char → List Char
  | [] => []
  | c :: rest =>
    if pat.isPrefixOf (c :: rest) then (c :: rest).drop pat.length
    else c :: removeFirstSub pat rest

/-- Model of `item.aisle.replace('lowstock:', '')`. -/
def replaceLowStockTag (s : String) : String :=
  ⟨removeFirstSub "lowstock:".data s.data⟩

/-- The display-aisle key `groupItemsByAisle` files an item under:
strip the `lowstock:` tag when present, translate, default to `Autre`. -/
def displayAisle (item : ShoppingRow) : String :=
  let rawAisle : Option String :=
    match item.aisle with
    | none => none
    | some a => if jsStartsWith a "lowstock:" then some (replaceLowStockTag a) else some a
  (translateAisle rawAisle).getD "Autre"

/-- Model of `groupItemsByAisle`: files each item, in order, into the map
keyed by its display aisle. -/
def groupItemsByAisle (items : List ShoppingRow) : List (String × List ShoppingRow) :=
  items.foldl
    (fun grouped item =>
      let aisle := displayAisle item
      setA aisle ((lookupA aisle grouped).getD [] ++ [item]) grouped)
    []

-- ============================================================================
-- Server-side stored procedure generate_shopping_list
-- (supabase/migrations/001_add_base_servings.sql)
-- ============================================================================

/-- The grouped aggregation of the stored procedure: rows are grouped by
the raw `(i.name, i.unit, i.aisle)` triple and the scaled quantities
`COALESCE(i.quantity, 1) * (pm.servings / COALESCE(r.base_servings, 4))`
are summed per group. No normalization, netting or low-stock folding is
performed. -/
def sqlAggregate (meals : List PlannedMeal) :
    List ((String × Option String × Option String) × ℚ) :=
  meals.foldl
    (fun groups meal =>
      match meal.recipe with
      | none => groups
      | some recipe =>
        recipe.ingredients.foldl
          (fun g i =>
            let key := (i.name, i.unit, i.aisle)
            let contribution :=
              (i.quantity.getD 1) * (meal.servings / (recipe.base_servings.getD 4))
            setA key ((lookupA key g).getD 0 + contribution) g)
          groups)
    []

/-- Model of the `shopping_list_items` rows inserted by the stored
procedure `generate_shopping_list`. -/
def generateShoppingListSql (meals : List PlannedMeal) : List ShoppingRow :=
  (sqlAggregate meals).map
    (fun g => { name := g.1.1, quantity := g.2, unit := g.1.2.1, aisle := g.1.2.2, checked := false })

-- ============================================================================
-- Inventory ledger (src/services/inventory.ts)
-- ============================================================================

/-- Transaction types of the `inventory_transactions` table. -/
inductive TxnType
  | add
  | remove
  | adjust
  | meal_used
  | expired
deriving Repr, DecidableEq

/-- An `inventory_transactions` row (ledger entry). -/
structure Txn where
  type : TxnType
  quantity : ℚ
  quantity_before : ℚ
  quantity_after : ℚ
  planned_meal_id : Option Nat := none
deriving Repr, DecidableEq

/-- A persisted inventory row as seen by the ledger operations. -/
structure InvRow where
  id : Nat
  name : String
  quantity : ℚ
  unit : Option String
deriving Repr, DecidableEq

/-- The input of `addToInventory`. -/
structure InventoryInput where
  name : String
  quantity : ℚ
  unit : Option String
deriving Repr, DecidableEq

/-- Replaces the quantity of every row whose id matches (ids are unique in
the store; the model mirrors the `eq('id', ...)` update). -/
def updateQuantityById (inv : List InvRow) (id : Nat) (q : ℚ) : List InvRow :=
  inv.map (fun r => if r.id == id then { r with quantity := q } else r)

/-- The inventory matcher shared by `addToInventory` and
`deduct_meal_ingredients`: case-insensitive name (`ilike` / `LOWER(...)`)
and exact unit, including both-null. -/
def invMatch (name : String) (unit : Option String) (r : InvRow) : Bool :=
  jsToLower r.name == jsToLower name && r.unit == unit

/-- Model of `addToInventory`: looks up an existing row by
case-insensitive name (`ilike`) and exact unit (including both-null); on a
hit the quantity is incremented and an `add` transaction with the prior
quantity is logged; otherwise a fresh row is inserted (with `newId`) and
an `add` transaction from 0 is logged. Returns the new store, the row the
service returns, and the logged transaction. -/
def addToInventory (inv : List InvRow) (newId : Nat) (input : InventoryInput) :
    List InvRow × InvRow × Txn :=
  match inv.find? (invMatch input.name input.unit) with
  | some existing =>
    let newQuantity := existing.quantity + input.quantity
    (updateQuantityById inv existing.id newQuantity,
     { existing with quantity := newQuantity },
     { type := .add, quantity := input.quantity,
       quantity_before := existing.quantity, quantity_after := newQuantity })
  | none =>
    let row : InvRow := { id := newId, name := input.name, quantity := input.quantity, unit := input.unit }
    (inv ++ [row], row,
     { type := .add, quantity := input.quantity,
       quantity_before := 0, quantity_after := input.quantity })

/-- Model of `removeFromStock`: a missing id is an explicit failure; else
the stored quantity becomes `max(0, current - delta)` and a `remove`
transaction is logged with signed quantity `-delta` (the full requested
delta) and the before/after pair. -/
def removeFromStock (inv : List InvRow) (id : Nat) (delta : ℚ) :
    Except String (List InvRow × InvRow × Txn) :=
  match inv.find? (fun r => r.id == id) with
  | none => .error "Item not found"
  | some current =>
    let newQuantity := max 0 (current.quantity - delta)
    .ok (updateQuantityById inv id newQuantity,
         { current with quantity := newQuantity },
         { type := .remove, quantity := -delta,
           quantity_before := current.quantity, quantity_after := newQuantity })

/-- Model of the quantity-changing path of `updateInventoryItem`: a direct
overwrite of the quantity; when the value changes, the signed difference
is logged with type `add` when positive and `remove` otherwise. -/
def updateItemQuantity (inv : List InvRow) (id : Nat) (newQuantity : ℚ) :
    Except String (List InvRow × InvRow × Option Txn) :=
  match inv.find? (fun r => r.id == id) with
  | none => .error "Item not found"
  | some current =>
    let txn : Option Txn :=
      if newQuantity ≠ current.quantity then
        some { type := if newQuantity - current.quantity > 0 then .add else .remove,
               quantity := newQuantity - current.quantity,
               quantity_before := current.quantity, quantity_after := newQuantity }
      else none
    .ok (updateQuantityById inv id newQuantity, { current with quantity := newQuantity }, txn)

-- ============================================================================
-- Meal consumption: deduct_meal_ingredients
-- (supabase/migrations/002_inventory.sql)
-- ============================================================================

/-- A planned-meal row joined with its recipe, as read by
`deduct_meal_ingredients`. -/
structure PlannedMealRow where
  id : Nat
  servings : ℚ
  base_servings : Option ℚ
  ingredients : List Ingredient
deriving Repr, DecidableEq

/-- One entry of the JSONB result array: what was deducted for one
matched ingredient. -/
structure Deduction where
  name : String
  deducted : ℚ
  remaining : ℚ
deriving Repr, DecidableEq

/-- The per-ingredient loop body of `deduct_meal_ingredients`: find the
inventory row matching on case-insensitive name and exact unit (including
both-null); if found with positive quantity, deduct
`LEAST(in_stock, needed)`, log a `meal_used` transaction tied to the
planned meal, and report the deduction; otherwise leave the state
unchanged. -/
def deductIngredient (mealId : Nat) (multiplier : ℚ)
    (st : List InvRow × List Txn × List Deduction) (ing : Ingredient) :
    List InvRow × List Txn × List Deduction :=
  let needed := (ing.quantity.getD 1) * multiplier
  match st.1.find? (invMatch ing.name ing.unit) with
  | none => st
  | some item =>
    if item.quantity > 0 then
      let deduct := min item.quantity needed
      (updateQuantityById st.1 item.id (item.quantity - deduct),
       st.2.1 ++ [{ type := .meal_used, quantity := -deduct,
                    quantity_before := item.quantity,
                    quantity_after := item.quantity - deduct,
                    planned_meal_id := some mealId }],
       st.2.2 ++ [{ name := ing.name, deducted := deduct, remaining := item.quantity - deduct }])
    else st

/-- Model of `deduct_meal_ingredients`: a planned-meal id with no row is
an explicit failure (`RAISE EXCEPTION 'Planned meal not found'`) with no
deduction; otherwise every recipe ingredient is processed in order with
`multiplier = servings / COALESCE(base_servings, 4)`. -/
def deductMealIngredients (mealStore : List PlannedMealRow) (inv : List InvRow)
    (mealId : Nat) :
    Except String (List InvRow × List Txn × List Deduction) :=
  match mealStore.find? (fun pm => pm.id == mealId) with
  | none => .error "Planned meal not found"
  | some pm =>
    let multiplier := pm.servings / (pm.base_servings.getD 4)
    .ok (pm.ingredients.foldl (deductIngredient pm.id multiplier) (inv, [], []))

-- ============================================================================
-- Concrete scenarios (inputs for witnesses and counterexamples)
-- ============================================================================

/-- Spec §8 scenario 7: recipe "Pasta" (base_servings 4) with ingredient
"Pâtes" 400 g, planned with servings 2. -/
def pastaMeal : PlannedMeal := ⟨2, some ⟨some 4, [⟨"Pâtes", some 400, some "g", some "pasta"⟩]⟩⟩

/-- Spec §8 scenario 7 inventory: "pâtes" 100 g, min_quantity 0. -/
def pastaInv : InventoryItem := ⟨"pâtes", 100, some "g", 0, some "pasta"⟩

/-- A meal whose recipe uses "Onion" with unit "piece" (base 4,
servings 4). -/
def onionMeal1 : PlannedMeal := ⟨4, some ⟨some 4, [⟨"Onion", some 2, some "piece", some "produce"⟩]⟩⟩

/-- A second meal whose recipe uses "oignon" with no unit. -/
def onionMeal2 : PlannedMeal := ⟨4, some ⟨some 4, [⟨"oignon", some 3, none, none⟩]⟩⟩

/-- An inventory item sitting exactly at its threshold:
quantity = min_quantity = 2 (unit g). -/
def pates22 : InventoryItem := ⟨"pâtes", 2, some "g", 2, some "pasta"⟩

/-- A planned meal demanding 5 g of "pâtes" (base 4, servings 4). -/
def mealDemand5 : PlannedMeal := ⟨4, some ⟨some 4, [⟨"pâtes", some 5, some "g", some "pasta"⟩]⟩⟩

/-- Spec §8 scenario 1: base_servings 4, ingredient quantity 200,
servings 6. -/
def scaleMeal : PlannedMeal := ⟨6, some ⟨some 4, [⟨"riz", some 200, some "g", none⟩]⟩⟩

/-- A recipe-driven (not stock-driven) aggregated entry whose source aisle
string itself starts with the reserved tag. -/
def advAgg : AggMap := [("x", ⟨"X", [⟨1, "g"⟩], some "lowstock:club", false⟩)]

/-- The same entry marked stock-driven. -/
def advAggTagged : AggMap := [("x", ⟨"X", [⟨1, "g"⟩], some "lowstock:club", true⟩)]

/-- One aggregated name carrying three different unit sub-totals. -/
def threeUnit : AggMap := [("oignon", ⟨"Oignon", [⟨1, "pièce"⟩, ⟨200, "g"⟩, ⟨3, ""⟩], some "produce", false⟩)]

/-- A planned-meal row for the consumption procedure: servings 2, base 4,
one ingredient "Riz" 200 g. -/
def pmRow : PlannedMealRow := ⟨7, 2, some 4, [⟨"Riz", some 200, some "g", none⟩]⟩

/-- An inventory row with 4 kg of rice. -/
def riz4 : List InvRow := [⟨1, "riz", 4, some "kg"⟩]

-- ============================================================================
-- Association-list lemmas
-- ============================================================================

theorem lookupA_setA_self {κ α : Type} [BEq κ] [LawfulBEq κ] (k : κ) (v : α)
    (m : List (κ × α)) : lookupA k (setA k v m) = some v := by
  induction m with
  | nil => simp [setA, lookupA]
  | cons p rest ih =>
    by_cases h : p.1 = k
    · simp [setA, lookupA, h]
    · simp [setA, lookupA, h, ih]

theorem lookupA_setA_ne {κ α : Type} [BEq κ] [LawfulBEq κ] {k k' : κ} (v : α)
    (m : List (κ × α)) (h : k ≠ k') : lookupA k (setA k' v m) = lookupA k m := by
  induction m with
  | nil => simp [setA, lookupA, Ne.symm h]
  | cons p rest ih =>
    by_cases hp : p.1 = k'
    · simp [setA, lookupA, hp, Ne.symm h]
    · simp only [setA, lookupA, beq_iff_eq, hp, if_false]
      by_cases hk : p.1 = k
      · simp [lookupA, hk]
      · simp [lookupA, hk, ih]

theorem lookupA_eq_none_of_not_mem {κ α : Type} [BEq κ] [LawfulBEq κ] {k : κ}
    {m : List (κ × α)} (h : k ∉ m.map Prod.fst) : lookupA k m = none := by
  induction m with
  | nil => simp [lookupA]
  | cons p rest ih =>
    simp only [List.map_cons, List.mem_cons, not_or] at h
    simp [lookupA, Ne.symm h.1, ih h.2]

-- ============================================================================
-- Rational arithmetic facts used by the netting theorems
-- ============================================================================

theorem max_zero_sub_eq_sub_min (s d : ℚ) : max 0 (s - d) = s - min d s := by
  rcases le_total d s with h | h
  · rw [min_eq_left h, max_eq_right (sub_nonneg.mpr h)]
  · rw [min_eq_right h, max_eq_left (sub_nonpos.mpr h), sub_self]

-- ============================================================================
-- Netting lemmas
-- ============================================================================

theorem netEntry_none (acc : AggMap × InvMap) (e : String × AggregatedItem)
    (hm : lookupA e.1 acc.2 = none) : netEntry acc e = (acc.1 ++ [e], acc.2) := by
  simp [netEntry, hm]

theorem netEntry_some_empty (acc : AggMap × InvMap) (e : String × AggregatedItem)
    (stockByUnit : List (String × ℚ)) (hm : lookupA e.1 acc.2 = some stockByUnit)
    (he : (netOne stockByUnit e.2.quantities).1 = []) :
    netEntry acc e = (acc.1, setA e.1 (netOne stockByUnit e.2.quantities).2 acc.2) := by
  simp [netEntry, hm, he]

theorem netEntry_some_ne (acc : AggMap × InvMap) (e : String × AggregatedItem)
    (stockByUnit : List (String × ℚ)) (hm : lookupA e.1 acc.2 = some stockByUnit)
    (he : (netOne stockByUnit e.2.quantities).1 ≠ []) :
    netEntry acc e =
      (acc.1 ++ [(e.1, { e.2 with quantities := (netOne stockByUnit e.2.quantities).1 })],
       setA e.1 (netOne stockByUnit e.2.quantities).2 acc.2) := by
  simp [netEntry, hm, List.isEmpty_iff, he]

theorem netEntry_keys {name : String} (acc : AggMap × InvMap) (e : String × AggregatedItem)
    (h1 : name ∉ acc.1.map Prod.fst) (h2 : e.1 ≠ name) :
    name ∉ ((netEntry acc e).1).map Prod.fst := by
  cases hm : lookupA e.1 acc.2 with
  | none =>
    rw [netEntry_none acc e hm]
    simp only [List.map_append, List.mem_append, List.map_cons, List.map_nil,
      List.mem_singleton]
    rintro (h | h)
    · exact h1 h
    · exact h2 h.symm
  | some stockByUnit =>
    by_cases he : (netOne stockByUnit e.2.quantities).1 = []
    · rw [netEntry_some_empty acc e stockByUnit hm he]
      exact h1
    · rw [netEntry_some_ne acc e stockByUnit hm he]
      simp only [List.map_append, List.mem_append, List.map_cons, List.map_nil,
        List.mem_singleton]
      rintro (h | h)
      · exact h1 h
      · exact h2 h.symm

theorem netEntry_lookup_snd {name : String} (acc : AggMap × InvMap)
    (e : String × AggregatedItem) (h2 : e.1 ≠ name) :
    lookupA name (netEntry acc e).2 = lookupA name acc.2 := by
  cases hm : lookupA e.1 acc.2 with
  | none => rw [netEntry_none acc e hm]
  | some stockByUnit =>
    by_cases he : (netOne stockByUnit e.2.quantities).1 = []
    · rw [netEntry_some_empty acc e stockByUnit hm he]
      exact lookupA_setA_ne _ acc.2 (Ne.symm h2)
    · rw [netEntry_some_ne acc e stockByUnit hm he]
      exact lookupA_setA_ne _ acc.2 (Ne.symm h2)

theorem foldl_netEntry_keys {name : String} :
    ∀ (rest : AggMap) (acc : AggMap × InvMap),
      name ∉ acc.1.map Prod.fst → (∀ e ∈ rest, e.1 ≠ name) →
      name ∉ ((rest.foldl netEntry acc).1).map Prod.fst := by
  intro rest
  induction rest with
  | nil => intro acc h1 _; exact h1
  | cons e rest ih =>
    intro acc h1 h2
    simp only [List.foldl_cons]
    exact ih (netEntry acc e) (netEntry_keys acc e h1 (h2 e (by simp)))
      (fun e' he' => h2 e' (by simp [he']))

theorem netAgg_removes_go {name : String} {item : AggregatedItem}
    {stock : List (String × ℚ)} :
    ∀ (agg : AggMap) (acc : AggMap × InvMap),
      (agg.map Prod.fst).Nodup → (name, item) ∈ agg →
      name ∉ acc.1.map Prod.fst →
      lookupA name acc.2 = some stock →
      (netOne stock item.quantities).1 = [] →
      lookupA name (agg.foldl netEntry acc).1 = none := by
  intro agg
  induction agg with
  | nil => intro acc _ hmem; simp at hmem
  | cons e rest ih =>
    intro acc hnodup hmem hkeys hstock hempty
    rw [List.map_cons] at hnodup
    have hhead : e.1 ∉ rest.map Prod.fst := (List.nodup_cons.mp hnodup).1
    have hnodup' : (rest.map Prod.fst).Nodup := (List.nodup_cons.mp hnodup).2
    rcases List.mem_cons.mp hmem with he | hrest
    · subst he
      rw [List.foldl_cons, netEntry_some_empty acc (name, item) stock hstock hempty]
      refine lookupA_eq_none_of_not_mem (foldl_netEntry_keys rest _ hkeys ?_)
      intro e' he' hne
      have hm' : e'.1 ∈ rest.map Prod.fst := List.mem_map_of_mem Prod.fst he'
      rw [hne] at hm'
      exact hhead hm'
    · have hne : e.1 ≠ name := by
        intro hcontra
        exact hhead (hcontra ▸ List.mem_map_of_mem Prod.fst hrest)
      rw [List.foldl_cons]
      exact ih (netEntry acc e) hnodup' hrest
        (netEntry_keys acc e hkeys hne)
        ((netEntry_lookup_snd acc e hne).trans hstock) hempty

theorem setA_map_fst_of_lookup {κ α : Type} [BEq κ] [LawfulBEq κ] (k : κ) (v : α)
    (m : List (κ × α)) (h : (lookupA k m).isSome) :
    (setA k v m).map Prod.fst = m.map Prod.fst := by
  induction m with
  | nil => simp [lookupA] at h
  | cons p rest ih =>
    by_cases hp : p.1 = k
    · simp [setA, hp]
    · rw [lookupA, if_neg (by simpa using hp)] at h
      simp [setA, hp, ih h]

theorem lookupA_isSome_of_mem {κ α : Type} [BEq κ] [LawfulBEq κ] {k : κ}
    {m : List (κ × α)} (h : k ∈ m.map Prod.fst) : (lookupA k m).isSome := by
  induction m with
  | nil => simp at h
  | cons p rest ih =>
    by_cases hp : p.1 = k
    · simp [lookupA, hp]
    · rw [lookupA, if_neg (by simpa using hp)]
      refine ih ?_
      simp only [List.map_cons, List.mem_cons] at h
      exact h.resolve_left (fun hk => hp hk.symm)

theorem addIngredient_keys_nodup (agg : AggMap) (mult : ℚ) (ing : Ingredient)
    (h : (agg.map Prod.fst).Nodup) :
    ((addIngredient agg mult ing).map Prod.fst).Nodup := by
  rw [addIngredient]
  cases hl : lookupA (normalizeIngredientName ing.name) agg with
  | some existing =>
    rw [setA_map_fst_of_lookup _ _ _ (by simp [hl])]
    exact h
  | none =>
    have hnm : normalizeIngredientName ing.name ∉ agg.map Prod.fst := by
      intro hmem
      have hsome := lookupA_isSome_of_mem (α := AggregatedItem) hmem
      simp [hl] at hsome
    rw [List.map_append]
    refine List.Nodup.append h (List.nodup_singleton _) ?_
    intro x hx hmem2
    simp only [List.map_cons, List.map_nil, List.mem_singleton] at hmem2
    exact hnm (hmem2 ▸ hx)

theorem foldl_addIngredient_keys_nodup (ings : List Ingredient) (mult : ℚ) :
    ∀ (agg : AggMap), (agg.map Prod.fst).Nodup →
      ((ings.foldl (fun a i => addIngredient a mult i) agg).map Prod.fst).Nodup := by
  induction ings with
  | nil => intro agg h; exact h
  | cons i rest ih =>
    intro agg h
    exact ih _ (addIngredient_keys_nodup agg mult i h)

theorem aggregateMeals_keys_nodup_go :
    ∀ (meals : List PlannedMeal) (agg : AggMap), (agg.map Prod.fst).Nodup →
      ((meals.foldl
          (fun agg meal =>
            match meal.recipe with
            | none => agg
            | some recipe =>
              recipe.ingredients.foldl
                (fun a i => addIngredient a
                  (jsOrNum meal.servings 1 / jsOrOptNum recipe.base_servings 4) i) agg)
          agg).map Prod.fst).Nodup := by
  intro meals
  induction meals with
  | nil => intro agg h; exact h
  | cons meal rest ih =>
    intro agg h
    rw [List.foldl_cons]
    cases hr : meal.recipe with
    | none => exact ih agg h
    | some recipe => exact ih _ (foldl_addIngredient_keys_nodup recipe.ingredients _ agg h)

/-- The aggregator never creates two entries with the same normalized
name, so the key-uniqueness hypothesis of the netting removal theorem
holds for every demand map the pipeline feeds into netting. -/
theorem aggregateMeals_keys_nodup (meals : List PlannedMeal) :
    ((aggregateMeals meals).map Prod.fst).Nodup := by
  rw [aggregateMeals]
  exact aggregateMeals_keys_nodup_go meals [] (by simp)

/-- C1: Inventory netting in `generateShoppingList`. For every
(normalized name, normalized unit) sub-total with demand `D` and in-stock
quantity `S` for that exact pair, when `S > 0` the remaining quantity
equals `max 0 (D - S)` and the in-stock counter is decremented by exactly
`min D S` (hence by at most `min D S`, so it cannot be applied twice to a
later sub-total of the same name, which reads the already-decremented
counter); a sub-total whose remaining is 0 is dropped; the remaining
quantity is never negative; and a name all of whose sub-totals net to
zero is removed from the demand map entirely (its key-uniqueness
hypothesis being an invariant the aggregator guarantees, stated as the
last conjunct). -/
theorem inventory_netting_correct :
    (∀ (out : List QuantityUnit) (stock : List (String × ℚ)) (qu : QuantityUnit),
      0 < (lookupA qu.unit stock).getD 0 →
      lookupA qu.unit (netStep (out, stock) qu).2 =
        some ((lookupA qu.unit stock).getD 0 - min qu.quantity ((lookupA qu.unit stock).getD 0))
      ∧ (netStep (out, stock) qu).1 =
          (if 0 < max 0 (qu.quantity - (lookupA qu.unit stock).getD 0) then
            out ++ [⟨max 0 (qu.quantity - (lookupA qu.unit stock).getD 0), qu.unit⟩]
          else out)
      ∧ 0 ≤ max 0 (qu.quantity - (lookupA qu.unit stock).getD 0))
    ∧ (∀ (agg : AggMap) (inv : InvMap) (name : String) (item : AggregatedItem)
        (stock : List (String × ℚ)),
        (agg.map Prod.fst).Nodup → (name, item) ∈ agg →
        lookupA name inv = some stock →
        (netOne stock item.quantities).1 = [] →
        lookupA name (netAgg agg inv).1 = none)
    ∧ (∀ meals : List PlannedMeal, ((aggregateMeals meals).map Prod.fst).Nodup) := by
  refine ⟨?_, ?_, aggregateMeals_keys_nodup⟩
  · intro out stock qu hS
    have hstep : netStep (out, stock) qu =
        (if 0 < max 0 (qu.quantity - (lookupA qu.unit stock).getD 0) then
          out ++ [⟨max 0 (qu.quantity - (lookupA qu.unit stock).getD 0), qu.unit⟩]
        else out,
         setA qu.unit (max 0 ((lookupA qu.unit stock).getD 0 - qu.quantity)) stock) := by
      simp [netStep, hS]
    rw [hstep]
    refine ⟨?_, rfl, le_max_left _ _⟩
    rw [lookupA_setA_self, max_zero_sub_eq_sub_min]
  · intro agg inv name item stock hnodup hmem hstock hempty
    exact netAgg_removes_go agg ([], inv) hnodup hmem (by simp) hstock hempty

/-- Witness for `inventory_netting_correct` at concrete inputs: demand
2 g against 5 g in stock leaves a stock bucket of 3 with no remaining
need, and the demand name disappears from the netted map. -/
theorem inventory_netting_correct_witness :
    lookupA "g" (netStep ([], [("g", (5:ℚ))]) ⟨2, "g"⟩).2 = some 3
    ∧ lookupA "pâtes"
        (netAgg [("pâtes", ⟨"Pâtes", [⟨2, "g"⟩], some "pasta", false⟩)]
          [("pâtes", [("g", (5:ℚ))])]).1 = none := by
  constructor
  · have h := (inventory_netting_correct.1 [] [("g", (5:ℚ))] ⟨2, "g"⟩
      (by norm_num [lookupA])).1
    have e1 : (lookupA (QuantityUnit.mk 2 "g").unit [("g", (5:ℚ))]).getD 0 = 5 := by
      norm_num [lookupA]
    rw [e1] at h
    have e2 : (5:ℚ) - min (QuantityUnit.mk 2 "g").quantity 5 = 3 := by
      norm_num [min_def]
    rw [e2] at h
    exact h
  · exact inventory_netting_correct.2.1 _ _ "pâtes" ⟨"Pâtes", [⟨2, "g"⟩], some "pasta", false⟩
      [("g", (5:ℚ))] (by decide) (by simp) (by norm_num [lookupA])
      (by norm_num [netOne, netStep, lookupA, setA, max_def])

/-- C2: Proportional scaling in the ingredient aggregator. For a planned
meal with nonzero servings `s` over a recipe with nonzero
`base_servings` `b`, the multiplier is the exact unrounded ratio `s / b`
and each ingredient contributes `(quantity ?? 1) * (s / b)` to its
sub-total; in particular base 4, quantity 200, servings 6 contributes
exactly 300. -/
theorem proportional_scaling_correct :
    (∀ (s b : ℚ) (nm : String) (q : Option ℚ) (u : Option String) (ai : Option String),
      s ≠ 0 → b ≠ 0 →
      aggregateMeals [⟨s, some ⟨some b, [⟨nm, q, u, ai⟩]⟩⟩] =
        [(normalizeIngredientName nm,
          { name := capitalizeFirst (normalizeIngredientName nm),
            quantities := [⟨(q.getD 1) * (s / b), normalizeUnit u⟩],
            aisle := ai, isLowStock := false })])
    ∧ aggregateMeals [scaleMeal] =
        [("riz", { name := "Riz", quantities := [⟨300, "g"⟩], aisle := none,
                   isLowStock := false })] := by
  constructor
  · intro s b nm q u ai hs hb
    simp [aggregateMeals, addIngredient, lookupA, jsOrNum, jsOrOptNum, hs, hb]
  · norm_num [aggregateMeals, addIngredient, lookupA, jsOrNum, jsOrOptNum, scaleMeal,
      show normalizeIngredientName "riz" = "riz" from by decide,
      show normalizeUnit (some "g") = "g" from by decide,
      show capitalizeFirst "riz" = "Riz" from by decide]

/-- Witness for `proportional_scaling_correct` at servings 6 over base 4
with ingredient quantity 200. -/
theorem proportional_scaling_correct_witness :
    (6:ℚ) ≠ 0 ∧ (4:ℚ) ≠ 0 ∧
    aggregateMeals [⟨6, some ⟨some 4, [⟨"riz", some 200, some "g", none⟩]⟩⟩] =
      [("riz", { name := "Riz", quantities := [⟨200 * (6 / 4), "g"⟩], aisle := none,
                 isLowStock := false })] := by
  refine ⟨by norm_num, by norm_num, ?_⟩
  have h := proportional_scaling_correct.1 6 4 "riz" (some 200) (some "g") none
    (by norm_num) (by norm_num)
  simpa [show normalizeIngredientName "riz" = "riz" from by decide,
    show normalizeUnit (some "g") = "g" from by decide,
    show capitalizeFirst "riz" = "Riz" from by decide] using h

/-- C3 counterexample: removing 10 from an item holding 4 logs a `remove`
transaction with signed quantity -10 but `quantity_after -
quantity_before = 0 - 4 = -4`, so the claimed ledger identity fails. -/
theorem ledger_consistency_cex :
    removeFromStock riz4 1 10 =
      .ok ([⟨1, "riz", 0, some "kg"⟩], ⟨1, "riz", 0, some "kg"⟩,
           { type := .remove, quantity := -10, quantity_before := 4, quantity_after := 0,
             planned_meal_id := none })
    ∧ ¬ ((0:ℚ) - 4 = -10) := by
  constructor
  · norm_num [removeFromStock, riz4, updateQuantityById, max_def]
  · norm_num

/-- C3 amended: after every ledger mutation the stored item quantity
equals the transaction's `quantity_after` (for meal consumption, the
updated inventory row carries the new `meal_used` transaction's
`quantity_after`), and `quantity_after - quantity_before` equals the
signed `quantity` for add transactions, for adjust-style quantity
updates, for meal consumption, and for remove transactions whose
requested delta does not exceed the current quantity; a remove whose
delta exceeds the current quantity violates the identity (see the
counterexample). -/
theorem ledger_consistency_amended :
    (∀ (inv : List InvRow) (newId : Nat) (input : InventoryInput),
      (addToInventory inv newId input).2.2.quantity_after
          - (addToInventory inv newId input).2.2.quantity_before
        = (addToInventory inv newId input).2.2.quantity
      ∧ (addToInventory inv newId input).2.1.quantity
        = (addToInventory inv newId input).2.2.quantity_after)
    ∧ (∀ (inv : List InvRow) (id : Nat) (δ : ℚ) (inv' : List InvRow) (row : InvRow)
        (txn : Txn),
        removeFromStock inv id δ = .ok (inv', row, txn) →
        row.quantity = txn.quantity_after
        ∧ row ∈ inv'
        ∧ (δ ≤ txn.quantity_before → txn.quantity_after - txn.quantity_before = txn.quantity))
    ∧ (∀ (inv : List InvRow) (id : Nat) (nq : ℚ) (inv' : List InvRow) (row : InvRow)
        (txn : Txn),
        updateItemQuantity inv id nq = .ok (inv', row, some txn) →
        txn.quantity_after - txn.quantity_before = txn.quantity
        ∧ row.quantity = txn.quantity_after)
    ∧ (∀ (mealId : Nat) (mult : ℚ) (st : List InvRow × List Txn × List Deduction)
        (ing : Ingredient),
        ∀ txn ∈ (deductIngredient mealId mult st ing).2.1,
          txn ∈ st.2.1 ∨ txn.quantity_after - txn.quantity_before = txn.quantity)
    ∧ (∀ (mealId : Nat) (mult : ℚ) (st : List InvRow × List Txn × List Deduction)
        (ing : Ingredient) (item : InvRow) (txn : Txn),
        st.1.find? (invMatch ing.name ing.unit) = some item →
        0 < item.quantity →
        (deductIngredient mealId mult st ing).2.1 = st.2.1 ++ [txn] →
        txn.quantity_after - txn.quantity_before = txn.quantity
        ∧ ({ item with quantity := txn.quantity_after } : InvRow)
            ∈ (deductIngredient mealId mult st ing).1) := by
  refine ⟨?_, ?_, ?_, ?_, ?_⟩
  · intro inv newId input
    cases hf : inv.find? (invMatch input.name input.unit) with
    | none => simp [addToInventory, hf]
    | some existing => simp [addToInventory, hf]
  · intro inv id δ inv' row txn h
    rw [removeFromStock] at h
    cases hf : inv.find? (fun r => r.id == id) with
    | none => rw [hf] at h; cases h
    | some current =>
      rw [hf] at h
      injection h with h
      obtain ⟨h1, h2⟩ := Prod.mk.injEq .. ▸ h
      obtain ⟨h2, h3⟩ := Prod.mk.injEq .. ▸ h2
      subst h1; subst h2; subst h3
      refine ⟨rfl, ?_, ?_⟩
      · have hc : current ∈ inv := List.mem_of_find?_eq_some hf
        have hid : (current.id == id) = true := by
          have h2 := List.find?_some hf
          simpa using h2
        have : (fun r => if r.id == id then { r with quantity := max 0 (current.quantity - δ) }
            else r) current = { current with quantity := max 0 (current.quantity - δ) } := by
          simp [hid]
        exact this ▸ List.mem_map_of_mem _ hc
      · intro hle
        simp only
        rw [max_eq_right (sub_nonneg.mpr hle)]
        ring
  · intro inv id nq inv' row txn h
    rw [updateItemQuantity] at h
    cases hf : inv.find? (fun r => r.id == id) with
    | none => rw [hf] at h; cases h
    | some current =>
      rw [hf] at h
      dsimp only at h
      by_cases heq : nq = current.quantity
      · rw [if_neg (not_not_intro heq)] at h
        simp at h
      · rw [if_pos heq] at h
        simp only [Except.ok.injEq, Prod.mk.injEq, Option.some.injEq] at h
        obtain ⟨_, h2, h3⟩ := h
        subst h3
        exact ⟨rfl, by rw [← h2]⟩
  · intro mealId mult st ing txn hmem
    rw [deductIngredient] at hmem
    cases hf : st.1.find? (invMatch ing.name ing.unit) with
    | none => rw [hf] at hmem; exact .inl hmem
    | some item =>
      rw [hf] at hmem
      by_cases hq : item.quantity > 0
      · simp only [hq, if_true, List.mem_append, List.mem_singleton] at hmem
        rcases hmem with hmem | hmem
        · exact .inl hmem
        · subst hmem
          exact .inr (by simp only; ring)
      · simp only [hq, if_false] at hmem
        exact .inl hmem
  · intro mealId mult st ing item txn hf hq happ
    have hres : deductIngredient mealId mult st ing =
        (updateQuantityById st.1 item.id
           (item.quantity - min item.quantity ((ing.quantity.getD 1) * mult)),
         st.2.1 ++ [{ type := .meal_used,
                      quantity := -(min item.quantity ((ing.quantity.getD 1) * mult)),
                      quantity_before := item.quantity,
                      quantity_after :=
                        item.quantity - min item.quantity ((ing.quantity.getD 1) * mult),
                      planned_meal_id := some mealId }],
         st.2.2 ++ [{ name := ing.name,
                      deducted := min item.quantity ((ing.quantity.getD 1) * mult),
                      remaining :=
                        item.quantity - min item.quantity ((ing.quantity.getD 1) * mult) }]) := by
      simp [deductIngredient, hf, hq]
    rw [hres] at happ
    dsimp only at happ
    have hsing := List.append_cancel_left happ
    have htxn := (List.cons_eq_cons.mp hsing).1
    subst htxn
    constructor
    · dsimp only
      ring
    · rw [hres]
      dsimp only
      rw [updateQuantityById]
      have hc : item ∈ st.1 := List.mem_of_find?_eq_some hf
      have hfe : (fun r => if r.id == item.id then
          { r with quantity := item.quantity - min item.quantity ((ing.quantity.getD 1) * mult) }
          else r) item =
          { item with quantity := item.quantity - min item.quantity ((ing.quantity.getD 1) * mult) } := by
        simp
      exact hfe ▸ List.mem_map_of_mem _ hc

/-- Witness for `ledger_consistency_amended`: an add of 3 onto 4, a remove
of 2 from 4, a quantity overwrite 4 → 9, and a meal deduction of 80. -/
theorem ledger_consistency_amended_witness :
    ((addToInventory riz4 2 ⟨"riz", 3, some "kg"⟩).2.2.quantity_after
        - (addToInventory riz4 2 ⟨"riz", 3, some "kg"⟩).2.2.quantity_before
      = (addToInventory riz4 2 ⟨"riz", 3, some "kg"⟩).2.2.quantity)
    ∧ ((⟨1, "riz", 2, some "kg"⟩ : InvRow).quantity
        = (⟨TxnType.remove, -2, 4, 2, none⟩ : Txn).quantity_after)
    ∧ ((2:ℚ) - 4 = -2)
    ∧ ((9:ℚ) - 4 = 5)
    ∧ (((⟨TxnType.meal_used, -80, 80, 0, some 7⟩ : Txn) ∈ ([] : List Txn))
        ∨ ((0:ℚ) - 80 = -80))
    ∧ ((⟨3, "riz", (0:ℚ), some "g"⟩ : InvRow)
        ∈ (deductIngredient 7 (1/2) ([⟨3, "riz", 80, some "g"⟩], [], [])
            ⟨"Riz", some 200, some "g", none⟩).1) := by
  have ha := ledger_consistency_amended.1 riz4 2 ⟨"riz", 3, some "kg"⟩
  have hb := ledger_consistency_amended.2.1 riz4 1 2 [⟨1, "riz", 2, some "kg"⟩]
    ⟨1, "riz", 2, some "kg"⟩ ⟨.remove, -2, 4, 2, none⟩
    (by norm_num [removeFromStock, riz4, updateQuantityById, max_def])
  have hc := ledger_consistency_amended.2.2.1 riz4 1 9 [⟨1, "riz", 9, some "kg"⟩]
    ⟨1, "riz", 9, some "kg"⟩ ⟨.add, 5, 4, 9, none⟩
    (by norm_num [updateItemQuantity, riz4, updateQuantityById,
      show (List.find? (fun r => r.id == 1) riz4) = some ⟨1, "riz", 4, some "kg"⟩ from by rfl])
  have hd := ledger_consistency_amended.2.2.2.1 7 (1/2)
    ([⟨3, "riz", 80, some "g"⟩], [], []) ⟨"Riz", some 200, some "g", none⟩
    ⟨.meal_used, -80, 80, 0, some 7⟩
    (by norm_num [deductIngredient, min_def, updateQuantityById,
      show ([⟨3, "riz", 80, some "g"⟩] : List InvRow).find? (invMatch "Riz" (some "g"))
        = some ⟨3, "riz", 80, some "g"⟩ from by rfl])
  have he := ledger_consistency_amended.2.2.2.2 7 (1/2)
    ([⟨3, "riz", 80, some "g"⟩], [], []) ⟨"Riz", some 200, some "g", none⟩
    ⟨3, "riz", 80, some "g"⟩ ⟨.meal_used, -80, 80, 0, some 7⟩
    (by rfl) (by norm_num)
    (by norm_num [deductIngredient, min_def,
      show ([⟨3, "riz", 80, some "g"⟩] : List InvRow).find? (invMatch "Riz" (some "g"))
        = some ⟨3, "riz", 80, some "g"⟩ from by rfl])
  refine ⟨ha.1, hb.1, hb.2.2 (by norm_num), ?_, ?_, ?_⟩
  · have := hc.1
    norm_num at this ⊢
  · exact hd
  · exact he.2

/-- C4: the removal floor of `removeFromStock`. When the id resolves to a
row with current quantity `q`, the stored quantity afterwards is
`max 0 (q - delta)` (never negative), only `min delta q` is actually
deducted, and the logged transaction records the full requested delta as
its signed quantity `-delta` together with the before/after pair. -/
theorem removal_floor_correct :
    ∀ (inv : List InvRow) (id : Nat) (δ : ℚ) (current : InvRow),
      inv.find? (fun r => r.id == id) = some current →
      removeFromStock inv id δ =
        .ok (updateQuantityById inv id (max 0 (current.quantity - δ)),
             { current with quantity := max 0 (current.quantity - δ) },
             { type := .remove, quantity := -δ, quantity_before := current.quantity,
               quantity_after := max 0 (current.quantity - δ), planned_meal_id := none })
      ∧ 0 ≤ max 0 (current.quantity - δ)
      ∧ current.quantity - max 0 (current.quantity - δ) = min δ current.quantity := by
  intro inv id δ current hf
  refine ⟨by simp [removeFromStock, hf], le_max_left _ _, ?_⟩
  rw [max_zero_sub_eq_sub_min current.quantity δ]
  ring

/-- Witness for `removal_floor_correct`: removing 10 from a row holding 4
floors the stored quantity at 0 while the transaction records -10. -/
theorem removal_floor_correct_witness :
    removeFromStock riz4 1 10 =
      .ok ([⟨1, "riz", 0, some "kg"⟩], ⟨1, "riz", 0, some "kg"⟩,
           { type := .remove, quantity := -10, quantity_before := 4, quantity_after := 0,
             planned_meal_id := none })
    ∧ (4:ℚ) - 0 = min 10 4 := by
  have h := removal_floor_correct riz4 1 10 ⟨1, "riz", 4, some "kg"⟩ (by rfl)
  constructor
  · have h1 := h.1
    norm_num [max_def, updateQuantityById, riz4] at h1 ⊢
    convert h1 using 2
  · have h3 := h.2.2
    norm_num [max_def] at h3
    norm_num [h3, min_def]

/-- C5 counterexample: on the spec §8 scenario-7 snapshot, the client
pipeline nets 100 g of inventory and yields one item of quantity 100,
while the stored procedure `generate_shopping_list` performs no netting
and yields quantity 200, so the two item sets are not equal up to
ordering. -/
theorem pipeline_equivalence_cex :
    generateShoppingListItems [pastaMeal] [pastaInv] =
        [⟨"Pâtes", 100, some "g", some "pasta", false⟩]
    ∧ generateShoppingListSql [pastaMeal] = [⟨"Pâtes", 200, some "g", some "pasta", false⟩]
    ∧ ¬ (generateShoppingListItems [pastaMeal] [pastaInv]).Perm
        (generateShoppingListSql [pastaMeal]) := by
  have h1 : generateShoppingListItems [pastaMeal] [pastaInv] =
      [⟨"Pâtes", 100, some "g", some "pasta", false⟩] := by
    norm_num [generateShoppingListItems, buildInventoryMap, aggregateMeals, addIngredient,
      netAgg, netEntry, netOne, netStep, foldLowStock, foldLowStockItem, lowStockToBuy,
      effectiveStock, getLowStockItems, materialize, rowsOfEntry, lookupA, setA, bumpFirst,
      jsOrNum, jsOrOptNum, aisleOrOther, pastaMeal, pastaInv,
      show normalizeIngredientName "Pâtes" = "pâtes" from by decide,
      show normalizeIngredientName "pâtes" = "pâtes" from by decide,
      show normalizeUnit (some "g") = "g" from by decide,
      show capitalizeFirst "pâtes" = "Pâtes" from by decide,
      show ¬("g" = "") from by decide,
      show ¬("pasta" = "") from by decide,
      show ("lowstock:" ++ "pasta") = "lowstock:pasta" from by decide]
  have h2 : generateShoppingListSql [pastaMeal] =
      [⟨"Pâtes", 200, some "g", some "pasta", false⟩] := by
    norm_num [generateShoppingListSql, sqlAggregate, lookupA, setA, pastaMeal]
  refine ⟨h1, h2, ?_⟩
  rw [h1, h2]
  intro hp
  have heq := List.perm_singleton.mp hp
  have hq : (100:ℚ) = 200 := congrArg ShoppingRow.quantity (List.cons_eq_cons.mp heq).1
  norm_num at hq

/-- C5 amended: the stored procedure is not an equivalent path in
general (it skips normalization, netting and low-stock folding); the two
paths do agree in the restricted case of an empty inventory snapshot and
a recipe ingredient whose display-normalized name and normalized unit
are already in stored form. -/
theorem pipeline_equivalence_amended :
    ∀ (s b : ℚ) (nm : String) (q : Option ℚ) (u : Option String) (ai : Option String),
      s ≠ 0 → b ≠ 0 →
      capitalizeFirst (normalizeIngredientName nm) = nm →
      (if normalizeUnit u == "" then none else some (normalizeUnit u)) = u →
      generateShoppingListItems [⟨s, some ⟨some b, [⟨nm, q, u, ai⟩]⟩⟩] [] =
        generateShoppingListSql [⟨s, some ⟨some b, [⟨nm, q, u, ai⟩]⟩⟩] := by
  intro s b nm q u ai hs hb hnm hu
  have hu2 : (if normalizeUnit u = "" then none else some (normalizeUnit u)) = u := by
    simpa using hu
  simp [generateShoppingListItems, buildInventoryMap, aggregateMeals, addIngredient,
    netAgg, netEntry, getLowStockItems, foldLowStock, materialize, rowsOfEntry,
    generateShoppingListSql, sqlAggregate, lookupA, setA, jsOrNum, jsOrOptNum,
    hs, hb, hnm, hu2]

/-- Witness for `pipeline_equivalence_amended` with the
normalization-fixed ingredient name "7up" and unit "g". -/
theorem pipeline_equivalence_amended_witness :
    (6:ℚ) ≠ 0 ∧ (4:ℚ) ≠ 0
    ∧ capitalizeFirst (normalizeIngredientName "7up") = "7up"
    ∧ generateShoppingListItems [⟨6, some ⟨some 4, [⟨"7up", some 3, some "g", some "beverages"⟩]⟩⟩] [] =
        generateShoppingListSql [⟨6, some ⟨some 4, [⟨"7up", some 3, some "g", some "beverages"⟩]⟩⟩] := by
  refine ⟨by norm_num, by norm_num, by decide, ?_⟩
  exact pipeline_equivalence_amended 6 4 "7up" (some 3) (some "g") (some "beverages")
    (by norm_num) (by norm_num) (by decide) (by decide)

/-- C6 counterexample: `pates22` sits at its threshold
(quantity = min_quantity = 2), so the claimed formula
`toBuy = max 0 (min_quantity - quantity)` computes 0 and is forced to 1.
The code instead reads the post-netting shared stock map: with a meal
demanding 5 g the netting zeroes that bucket, the fold computes
`toBuy = max 0 (2 - 0) = 2`, and the resulting list row carries
3 + 2 = 5, not 3 + 1 = 4. -/
theorem low_stock_floor_cex :
    lowStockToBuy (netAgg (aggregateMeals [mealDemand5]) (buildInventoryMap [pates22])).2
        pates22 = 2
    ∧ pates22.quantity ≤ pates22.min_quantity
    ∧ (if pates22.quantity ≤ pates22.min_quantity
          ∧ max 0 (pates22.min_quantity - pates22.quantity) = 0
       then (1:ℚ) else max 0 (pates22.min_quantity - pates22.quantity)) = 1
    ∧ (2:ℚ) ≠ 1
    ∧ generateShoppingListItems [mealDemand5] [pates22] =
        [⟨"Pâtes", 5, some "g", some "lowstock:pasta", false⟩] := by
  refine ⟨?_, by norm_num [pates22], ?_, by norm_num, ?_⟩
  · norm_num [lowStockToBuy, effectiveStock, netAgg, netEntry, netOne, netStep,
      aggregateMeals, addIngredient, buildInventoryMap, lookupA, setA, jsOrNum, jsOrOptNum,
      max_def, mealDemand5, pates22,
      show normalizeIngredientName "pâtes" = "pâtes" from by decide,
      show normalizeUnit (some "g") = "g" from by decide]
  · norm_num [pates22, max_def]
  · norm_num [generateShoppingListItems, buildInventoryMap, aggregateMeals, addIngredient,
      netAgg, netEntry, netOne, netStep, foldLowStock, foldLowStockItem, lowStockToBuy,
      effectiveStock, getLowStockItems, materialize, rowsOfEntry, lookupA, setA, bumpFirst,
      jsOrNum, jsOrOptNum, aisleOrOther, max_def, mealDemand5, pates22,
      show normalizeIngredientName "pâtes" = "pâtes" from by decide,
      show normalizeUnit (some "g") = "g" from by decide,
      show capitalizeFirst "pâtes" = "Pâtes" from by decide,
      show ¬("g" = "") from by decide,
      show ¬("pasta" = "") from by decide,
      show ("lowstock:" ++ "pasta") = "lowstock:pasta" from by decide]

/-- C6 amended: the replenishment quantity is computed from the
effective current stock `S` — the post-netting shared stock bucket for
the item's normalized (name, unit) key, falling back to the item's own
quantity when the key is absent — as `max 0 (min_quantity - S)`, forced
to 1 when that is zero while `S` is still at/under the threshold; in
particular an item with quantity = min_quantity = 2 and no demand on its
key yields a replenishment row with quantity 1, never 0. -/
theorem low_stock_floor_amended :
    (∀ (invMap : InvMap) (item : InventoryItem),
      effectiveStock invMap item ≤ item.min_quantity →
      lowStockToBuy invMap item =
        (if item.min_quantity - effectiveStock invMap item = 0 then 1
         else item.min_quantity - effectiveStock invMap item))
    ∧ generateShoppingListItems [] [pates22] =
        [⟨"Pâtes", 1, some "g", some "lowstock:pasta", false⟩] := by
  constructor
  · intro invMap item hle
    have hnn : 0 ≤ item.min_quantity - effectiveStock invMap item := sub_nonneg.mpr hle
    simp only [lowStockToBuy, max_eq_right hnn]
    by_cases h0 : item.min_quantity - effectiveStock invMap item = 0
    · simp [hle, h0]
    · simp [hle, h0]
  · norm_num [generateShoppingListItems, buildInventoryMap, aggregateMeals,
      netAgg, foldLowStock, foldLowStockItem, lowStockToBuy, effectiveStock,
      getLowStockItems, materialize, rowsOfEntry, lookupA, setA,
      aisleOrOther, max_def, pates22,
      show normalizeIngredientName "pâtes" = "pâtes" from by decide,
      show normalizeUnit (some "g") = "g" from by decide,
      show capitalizeFirst "pâtes" = "Pâtes" from by decide,
      show ¬("g" = "") from by decide,
      show ¬("pasta" = "") from by decide,
      show ("lowstock:" ++ "pasta") = "lowstock:pasta" from by decide]

/-- Witness for `low_stock_floor_amended`: the threshold item `pates22`
with no demand map at all has effective stock 2 = min_quantity, and the
fold forces a replenishment of 1. -/
theorem low_stock_floor_amended_witness :
    effectiveStock [] pates22 ≤ pates22.min_quantity ∧ lowStockToBuy [] pates22 = 1 := by
  have h := low_stock_floor_amended.1 [] pates22
    (by norm_num [effectiveStock, pates22, lookupA])
  refine ⟨by norm_num [effectiveStock, pates22, lookupA], ?_⟩
  rw [h]
  norm_num [effectiveStock, pates22, lookupA]

/-- C7: aggregation groups by the normalized name only. The "Onion"
(unit "piece") and "oignon" (unit null) ingredients of two different
meals end up in the single demand group keyed "oignon" with two distinct
(quantity, unit) sub-totals and display name `capitalizeFirst "oignon" =
"Oignon"`; in general a fresh ingredient creates exactly the key
`normalizeIngredientName ing.name`. -/
theorem merge_by_normalized_name :
    aggregateMeals [onionMeal1, onionMeal2] =
      [("oignon", { name := "Oignon", quantities := [⟨2, "pièce"⟩, ⟨3, ""⟩],
                    aisle := some "produce", isLowStock := false })]
    ∧ normalizeIngredientName "Onion" = normalizeIngredientName "oignon"
    ∧ (∀ (mult : ℚ) (ing : Ingredient),
        (addIngredient [] mult ing).map Prod.fst = [normalizeIngredientName ing.name]) := by
  refine ⟨?_, by decide, ?_⟩
  · norm_num [aggregateMeals, addIngredient, bumpFirst, lookupA, setA, jsOrNum, jsOrOptNum,
      onionMeal1, onionMeal2,
      show normalizeIngredientName "Onion" = "oignon" from by decide,
      show normalizeIngredientName "oignon" = "oignon" from by decide,
      show normalizeUnit (some "piece") = "pièce" from by decide,
      show normalizeUnit none = "" from by decide,
      show capitalizeFirst "oignon" = "Oignon" from by decide,
      show ¬("pièce" = "") from by decide]
  · intro mult ing
    simp [addIngredient, lookupA]

/-- C8: meal consumption (`deduct_meal_ingredients`). A nonexistent
planned-meal id is an explicit failure with no deduction; a recipe
ingredient matched in inventory by case-insensitive name and exact unit
with positive stock is deducted by exactly `min(in_stock, needed)` with a
`meal_used` transaction tied to the planned meal; an ingredient with no
match, or whose matched row has non-positive stock, is silently skipped
(the state is unchanged). -/
theorem meal_consumption_correct :
    (∀ (mealStore : List PlannedMealRow) (inv : List InvRow) (mealId : Nat),
      mealStore.find? (fun pm => pm.id == mealId) = none →
      deductMealIngredients mealStore inv mealId = .error "Planned meal not found")
    ∧ (∀ (mealId : Nat) (mult : ℚ) (st : List InvRow × List Txn × List Deduction)
        (ing : Ingredient) (item : InvRow),
        st.1.find? (invMatch ing.name ing.unit) = some item →
        0 < item.quantity →
        deductIngredient mealId mult st ing =
          (updateQuantityById st.1 item.id
             (item.quantity - min item.quantity ((ing.quantity.getD 1) * mult)),
           st.2.1 ++ [{ type := .meal_used,
                        quantity := -(min item.quantity ((ing.quantity.getD 1) * mult)),
                        quantity_before := item.quantity,
                        quantity_after :=
                          item.quantity - min item.quantity ((ing.quantity.getD 1) * mult),
                        planned_meal_id := some mealId }],
           st.2.2 ++ [{ name := ing.name,
                        deducted := min item.quantity ((ing.quantity.getD 1) * mult),
                        remaining :=
                          item.quantity - min item.quantity ((ing.quantity.getD 1) * mult) }]))
    ∧ (∀ (mealId : Nat) (mult : ℚ) (st : List InvRow × List Txn × List Deduction)
        (ing : Ingredient),
        st.1.find? (invMatch ing.name ing.unit) = none →
        deductIngredient mealId mult st ing = st)
    ∧ (∀ (mealId : Nat) (mult : ℚ) (st : List InvRow × List Txn × List Deduction)
        (ing : Ingredient) (item : InvRow),
        st.1.find? (invMatch ing.name ing.unit) = some item →
        item.quantity ≤ 0 →
        deductIngredient mealId mult st ing = st) := by
  refine ⟨?_, ?_, ?_, ?_⟩
  · intro mealStore inv mealId hf
    simp [deductMealIngredients, hf]
  · intro mealId mult st ing item hf hq
    simp [deductIngredient, hf, hq]
  · intro mealId mult st ing hf
    simp [deductIngredient, hf]
  · intro mealId mult st ing item hf hq
    simp [deductIngredient, hf, not_lt.mpr hq]

/-- Witness for `meal_consumption_correct`: a missing planned meal id 9
fails explicitly; "Riz" (needed 100 g at multiplier 1/2) against 80 g in
stock is deducted by exactly 80 with a transaction tied to meal 7; an
empty inventory and a zero-stock row are both skipped. -/
theorem meal_consumption_correct_witness :
    deductMealIngredients [pmRow] [] 9 = .error "Planned meal not found"
    ∧ deductIngredient 7 (1/2) ([⟨3, "riz", 80, some "g"⟩], [], [])
        ⟨"Riz", some 200, some "g", none⟩ =
        ([⟨3, "riz", 0, some "g"⟩],
         [{ type := .meal_used, quantity := -80, quantity_before := 80, quantity_after := 0,
            planned_meal_id := some 7 }],
         [{ name := "Riz", deducted := 80, remaining := 0 }])
    ∧ deductIngredient 7 (1/2) ([], [], []) ⟨"Riz", some 200, some "g", none⟩ = ([], [], [])
    ∧ deductIngredient 7 (1/2) ([⟨3, "riz", 0, some "g"⟩], [], [])
        ⟨"Riz", some 200, some "g", none⟩ = ([⟨3, "riz", 0, some "g"⟩], [], []) := by
  refine ⟨?_, ?_, ?_, ?_⟩
  · exact meal_consumption_correct.1 [pmRow] [] 9 (by rfl)
  · have h := meal_consumption_correct.2.1 7 (1/2) ([⟨3, "riz", 80, some "g"⟩], [], [])
      ⟨"Riz", some 200, some "g", none⟩ ⟨3, "riz", 80, some "g"⟩ (by rfl) (by norm_num)
    rw [h]
    norm_num [updateQuantityById, min_def]
  · exact meal_consumption_correct.2.2.1 7 (1/2) ([], [], [])
      ⟨"Riz", some 200, some "g", none⟩ (by rfl)
  · exact meal_consumption_correct.2.2.2 7 (1/2) ([⟨3, "riz", 0, some "g"⟩], [], [])
      ⟨"Riz", some 200, some "g", none⟩ ⟨3, "riz", 0, some "g"⟩ (by rfl) (by norm_num)

/-- C9: materializer row shape. The item construction emits exactly one
row per (name, unit) sub-total (so the total row count is the sum of the
sub-total counts, and a single name with three differing units yields
three rows), each row carrying that sub-total's quantity and unit (an
empty-string unit stored as null), and every row of a stock-driven entry
has its aisle prefixed with the reserved `lowstock:` tag. -/
theorem materializer_row_shape :
    (∀ agg : AggMap, (materialize agg).length = (agg.map (fun e => e.2.quantities.length)).sum)
    ∧ (∀ (agg : AggMap) (e : String × AggregatedItem), e ∈ agg →
        ∀ qu ∈ e.2.quantities,
          ({ name := e.2.name, quantity := qu.quantity,
             unit := if qu.unit == "" then none else some qu.unit,
             aisle := if e.2.isLowStock then some ("lowstock:" ++ aisleOrOther e.2.aisle)
                      else e.2.aisle,
             checked := false } : ShoppingRow) ∈ materialize agg)
    ∧ (∀ (item : AggregatedItem), item.isLowStock = true →
        ∀ row ∈ rowsOfEntry item, row.aisle = some ("lowstock:" ++ aisleOrOther item.aisle))
    ∧ materialize threeUnit =
        [⟨"Oignon", 1, some "pièce", some "produce", false⟩,
         ⟨"Oignon", 200, some "g", some "produce", false⟩,
         ⟨"Oignon", 3, none, some "produce", false⟩] := by
  refine ⟨?_, ?_, ?_, ?_⟩
  · intro agg
    rw [materialize, List.length_flatten, List.map_map]
    congr 1
    apply List.map_congr_left
    intro e _
    simp [rowsOfEntry]
  · intro agg e he qu hqu
    rw [materialize]
    rw [List.mem_flatten]
    refine ⟨rowsOfEntry e.2, List.mem_map_of_mem _ he, ?_⟩
    rw [rowsOfEntry]
    exact List.mem_map_of_mem _ hqu
  · intro item hls row hrow
    rw [rowsOfEntry] at hrow
    obtain ⟨qu, _, rfl⟩ := List.mem_map.mp hrow
    simp [hls]
  · norm_num [materialize, threeUnit, rowsOfEntry,
      show ¬("pièce" = "") from by decide,
      show ¬("g" = "") from by decide]

/-- Witness for `materializer_row_shape`: the middle (200 g) sub-total of
`threeUnit` appears as a row, and a row of a tagged entry carries the
prefixed aisle. -/
theorem materializer_row_shape_witness :
    (⟨"Oignon", 200, some "g", some "produce", false⟩ : ShoppingRow) ∈ materialize threeUnit
    ∧ (⟨"X", 1, some "g", some "lowstock:produce", false⟩ : ShoppingRow).aisle
        = some ("lowstock:" ++ aisleOrOther (some "produce")) := by
  constructor
  · have h := materializer_row_shape.2.1 threeUnit
      ("oignon", { name := "Oignon", quantities := [⟨1, "pièce"⟩, ⟨200, "g"⟩, ⟨3, ""⟩],
                   aisle := some "produce", isLowStock := false })
      (by simp [threeUnit]) ⟨200, "g"⟩ (by simp)
    simpa [show ¬("g" = "") from by decide] using h
  · have h := materializer_row_shape.2.2.1
      ⟨"X", [⟨1, "g"⟩], some "produce", true⟩ rfl
      ⟨"X", 1, some "g", some "lowstock:produce", false⟩
      (by simp [rowsOfEntry, aisleOrOther, show ¬("g" = "") from by decide,
        show ("lowstock:" ++ "produce") = "lowstock:produce" from by decide])
    exact h

-- ============================================================================
-- String lemmas for the lowstock tag round trip
-- ============================================================================

theorem isPrefixOf_append_self (l m : List Char) : l.isPrefixOf (l ++ m) = true := by
  induction l with
  | nil => simp [List.isPrefixOf]
  | cons c rest ih => simp [List.isPrefixOf, ih]

theorem jsStartsWith_append (p s : String) : jsStartsWith (p ++ s) p = true := by
  simp only [jsStartsWith, String.data_append]
  exact isPrefixOf_append_self p.data s.data

theorem removeFirstSub_append_self (p m : List Char) (hp : p ≠ []) :
    removeFirstSub p (p ++ m) = m := by
  cases p with
  | nil => exact absurd rfl hp
  | cons c rest =>
    show removeFirstSub (c :: rest) (c :: (rest ++ m)) = m
    rw [removeFirstSub]
    rw [show (c :: (rest ++ m)) = (c :: rest) ++ m from rfl]
    rw [if_pos (isPrefixOf_append_self (c :: rest) m)]
    exact List.drop_left (c :: rest) m

theorem replaceLowStockTag_append (s : String) :
    replaceLowStockTag ("lowstock:" ++ s) = s := by
  simp only [replaceLowStockTag, String.data_append]
  rw [removeFirstSub_append_self _ _ (by decide)]

theorem translate_aisleOrOther (a : Option String) :
    (translateAisle (some (aisleOrOther a))).getD "Autre" =
      (translateAisle a).getD "Autre" := by
  cases a with
  | none => decide
  | some s =>
    by_cases hs : s = ""
    · subst hs; decide
    · simp [aisleOrOther, hs]

/-- C10 counterexample: a recipe-driven (not stock-driven) entry whose
source aisle string is "lowstock:club" yields a row that
`isLowStockItem` reports as low-stock, and tagging that same entry moves
its row from the display group "club" to the group "lowstock:club". -/
theorem lowstock_tag_roundtrip_cex :
    materialize advAgg = [⟨"X", 1, some "g", some "lowstock:club", false⟩]
    ∧ advAgg.map (fun e => e.2.isLowStock) = [false]
    ∧ isLowStockItem ⟨"X", 1, some "g", some "lowstock:club", false⟩ = true
    ∧ displayAisle ⟨"X", 1, some "g", some "lowstock:club", false⟩ = "club"
    ∧ materialize advAggTagged = [⟨"X", 1, some "g", some "lowstock:lowstock:club", false⟩]
    ∧ displayAisle ⟨"X", 1, some "g", some "lowstock:lowstock:club", false⟩ = "lowstock:club"
    ∧ ("club" : String) ≠ "lowstock:club" := by
  refine ⟨?_, by decide, by decide, by decide, ?_, by decide, by decide⟩
  · norm_num [materialize, advAgg, rowsOfEntry, show ¬("g" = "") from by decide]
  · norm_num [materialize, advAggTagged, rowsOfEntry, aisleOrOther,
      show ¬("g" = "") from by decide,
      show ¬("lowstock:club" = "") from by decide,
      show ("lowstock:" ++ "lowstock:club") = "lowstock:lowstock:club" from by decide]

/-- C10 amended: provided no source aisle string itself starts with the
reserved "lowstock:" prefix, `isLowStockItem` holds of a materialized row
exactly when its aggregated entry was marked stock-driven, and
`groupItemsByAisle` files a row carrying the entry's tagged aisle under
the same translated display aisle as a row carrying the entry's untagged
aisle, so tagging never changes the display group. -/
theorem lowstock_tag_roundtrip_amended :
    ∀ (item : AggregatedItem),
      (∀ a, item.aisle = some a → jsStartsWith a "lowstock:" = false) →
      (∀ row ∈ rowsOfEntry item, isLowStockItem row = item.isLowStock)
      ∧ (∀ (row row2 : ShoppingRow),
          row.aisle = some ("lowstock:" ++ aisleOrOther item.aisle) →
          row2.aisle = item.aisle →
          displayAisle row = displayAisle row2) := by
  intro item hnp
  constructor
  · intro row hrow
    rw [rowsOfEntry] at hrow
    obtain ⟨qu, _, rfl⟩ := List.mem_map.mp hrow
    cases hls : item.isLowStock with
    | true => simp [isLowStockItem, hls, jsStartsWith_append]
    | false =>
      cases ha : item.aisle with
      | none => simp [isLowStockItem, hls, ha]
      | some a => simp [isLowStockItem, hls, ha, hnp a ha]
  · intro row row2 h1 h2
    have hl : displayAisle row = (translateAisle (some (aisleOrOther item.aisle))).getD "Autre" := by
      simp [displayAisle, h1, jsStartsWith_append, replaceLowStockTag_append]
    have hr : displayAisle row2 = (translateAisle item.aisle).getD "Autre" := by
      cases ha : item.aisle with
      | none => simp [displayAisle, h2, ha]
      | some a => simp [displayAisle, h2, ha, hnp a ha]
    rw [hl, hr, translate_aisleOrOther]

/-- Witness for `lowstock_tag_roundtrip_amended`: a stock-driven entry
with aisle "produce": its materialized row is detected as low-stock, and
the tagged and untagged aisles land in the same display group. -/
theorem lowstock_tag_roundtrip_amended_witness :
    isLowStockItem ⟨"X", 1, some "g", some ("lowstock:" ++ aisleOrOther (some "produce")), false⟩
      = true
    ∧ displayAisle ⟨"X", 1, some "g", some ("lowstock:" ++ aisleOrOther (some "produce")), false⟩
        = displayAisle ⟨"X", 1, some "g", some "produce", false⟩ := by
  have h := lowstock_tag_roundtrip_amended ⟨"X", [⟨1, "g"⟩], some "produce", true⟩
    (by intro a ha; injection ha with ha; subst ha; decide)
  constructor
  · have h1 := h.1 ⟨"X", 1, some "g", some ("lowstock:" ++ aisleOrOther (some "produce")), false⟩
      (by simp [rowsOfEntry, show ¬("g" = "") from by decide])
    exact h1
  · exact h.2 _ _ rfl rfl
